import Mathlib

/-!
Shallow embedding of the neo-clock-esp render-and-telemetry core:
the `MatrixDisplayUi` app-rotation scheduler (MatrixDisplayUi.cpp),
the `Liveview` frame-capture/dedup logic (Liveview.cpp), and the
`PeripheryManager_::getSpectrumData` spectrum consumer.

Machine integers are modelled as `Int`/`Nat` with explicit 32-bit wrap
where the source's unsigned arithmetic can wrap; the C++ `float`
`updateInterval` is modelled as `ℚ`, with C integer casts modelled as
truncation toward zero (`cTrunc`).
-/

/-- Truncation toward zero, the semantics of a C cast from a
fractional value to an integer type (for the in-range values that occur
here). -/
def cTrunc (q : ℚ) : Int := q.num.tdiv (q.den : Int)

/-- The 32-bit unsigned subtraction `a - b` (C `unsigned long` on ESP32). -/
def u32sub (a b : Nat) : Nat := (a % 2 ^ 32 + (2 ^ 32 - b % 2 ^ 32)) % 2 ^ 32

/-- Reinterpret a 32-bit unsigned value as C `long` (32-bit signed). -/
def toLong (u : Nat) : Int := if u % 2 ^ 32 < 2 ^ 31 then (u % 2 ^ 32 : Int) else (u % 2 ^ 32 : Int) - 2 ^ 32

/-- Embedding of `enum AppState` from MatrixDisplayUi.h. -/
inductive AppState where
  | FIXED
  | IN_TRANSITION
deriving DecidableEq, Repr

/-- Embedding of `struct AppData` from MatrixDisplayUi.h. The `name` string and the
`callback` function pointer are draw-only collaborators and carry no
scheduler-visible state, so they are omitted from the embedding. -/
structure AppData where
  enabled : Bool
  position : Int
  duration : Nat
deriving DecidableEq, Repr

/-- Embedding of `struct MatrixDisplayUiState` from MatrixDisplayUi.h. -/
structure MatrixDisplayUiState where
  appState : AppState
  currentApp : Int
  ticksSinceLastStateSwitch : Int
  appTransitionDirection : Int
  manuelControll : Bool
  lastUpdate : Nat
  cachedNextApp : Int
deriving DecidableEq, Repr

/-- The scheduler-relevant fields of `class MatrixDisplayUi`
(MatrixDisplayUi.h), together with the one global it reads during a
tick (`extern uint16_t TIME_PER_APP`, Globals).  The matrix driver,
fonts and frame players affect pixels only, not scheduler state. -/
structure MatrixDisplayUi where
  state : MatrixDisplayUiState
  apps : List AppData
  AppCount : Int
  ticksPerApp : Int
  ticksPerTransition : Int
  updateInterval : ℚ
  nextAppNumber : Int
  lastTransitionDirection : Int
  setAutoTransition : Bool
  _enabledAppCount : Int
  TIME_PER_APP : Nat
deriving DecidableEq, Repr

/-- Indexing `apps[i]` with the out-of-range reads that C++ leaves undefined
made total (they do not occur on the paths the theorems cover). -/
def getAppD (l : List AppData) (i : Int) : AppData := l.getD i.toNat ⟨false, 0, 0⟩

/-- Embedding of `MatrixDisplayUi::getNextAppNumber` (MatrixDisplayUi.cpp).
Returns the chosen index together with the state after the side effect
(consuming a pending `nextAppNumber` one-shot manual target).  The
source scans at most 16 enabled indices into a fixed `int[16]`. -/
def getNextAppNumber (m : MatrixDisplayUi) : Int × MatrixDisplayUi :=
  if m.nextAppNumber ≠ -1 then
    (m.nextAppNumber, { m with nextAppNumber := -1 })
  else
    let enabledIndices := ((List.range m.apps.length).filter
      (fun i => (m.apps.getD i ⟨false, 0, 0⟩).enabled)).take 16
    let enabledCount := enabledIndices.length
    if enabledCount = 0 then (0, m)
    else
      let currentPos :=
        match enabledIndices.findIdx? (fun i => (i : Int) == m.state.currentApp) with
        | some p => p
        | none => 0
      let nextPos :=
        ((currentPos : Int) + (enabledCount : Int) + m.state.appTransitionDirection).tmod
          (enabledCount : Int)
      ((enabledIndices.getD nextPos.toNat 0 : Int), m)

/-- The scheduler operations of the public interface that C1 ranges
over. -/
inductive SchedOp where
  | next
  | prev
  | trans (a : Nat)
  | tick
deriving DecidableEq, Repr

/-- Embedding of `MatrixDisplayUi::nextApp`, instrumented with the number of
`getNextAppNumber` calls the operation performs. -/
def nextAppC (m : MatrixDisplayUi) : MatrixDisplayUi × Nat :=
  if m.state.appState ≠ AppState.IN_TRANSITION then
    let s1 := { m.state with
                manuelControll := true,
                appState := AppState.IN_TRANSITION,
                ticksSinceLastStateSwitch := 0,
                appTransitionDirection := 1 }
    let m1 := { m with
                state := s1,
                lastTransitionDirection := m.state.appTransitionDirection }
    let r := getNextAppNumber m1
    ({ r.2 with state := { r.2.state with cachedNextApp := r.1 } }, 1)
  else (m, 0)

/-- Embedding of `MatrixDisplayUi::previousApp`, instrumented. -/
def previousAppC (m : MatrixDisplayUi) : MatrixDisplayUi × Nat :=
  if m.state.appState ≠ AppState.IN_TRANSITION then
    let s1 := { m.state with
                manuelControll := true,
                appState := AppState.IN_TRANSITION,
                ticksSinceLastStateSwitch := 0,
                appTransitionDirection := -1 }
    let m1 := { m with
                state := s1,
                lastTransitionDirection := m.state.appTransitionDirection }
    let r := getNextAppNumber m1
    ({ r.2 with state := { r.2.state with cachedNextApp := r.1 } }, 1)
  else (m, 0)

/-- Embedding of `MatrixDisplayUi::transitionToApp(uint8_t app)`, instrumented. -/
def transitionToAppC (a : Nat) (m : MatrixDisplayUi) : MatrixDisplayUi × Nat :=
  if (a : Int) ≥ m.AppCount then (m, 0)
  else
    let m1 := { m with state := { m.state with ticksSinceLastStateSwitch := 0 } }
    if (a : Int) = m1.state.currentApp then (m1, 0)
    else
      let s2 := { m1.state with
                  manuelControll := true,
                  appState := AppState.IN_TRANSITION,
                  appTransitionDirection :=
                    if (a : Int) < m1.state.currentApp then -1 else 1 }
      let m2 := { m1 with
                  nextAppNumber := (a : Int),
                  lastTransitionDirection := m1.state.appTransitionDirection,
                  state := s2 }
      let r := getNextAppNumber m2
      ({ r.2 with state := { r.2.state with cachedNextApp := r.1 } }, 1)

/-- Embedding of `MatrixDisplayUi::tick` (state-machine part; the drawing calls after
the switch do not touch scheduler state), instrumented. -/
def tickC (m : MatrixDisplayUi) : MatrixDisplayUi × Nat :=
  let m0 := { m with state := { m.state with
    ticksSinceLastStateSwitch := m.state.ticksSinceLastStateSwitch + 1 } }
  if m0.AppCount > 0 then
    match m0.state.appState with
    | AppState.IN_TRANSITION =>
      if m0.state.ticksSinceLastStateSwitch ≥ m0.ticksPerTransition then
        let nextApp :=
          if m0.state.cachedNextApp < 0 ∨ m0.state.cachedNextApp ≥ (m0.apps.length : Int) then 0
          else m0.state.cachedNextApp
        let s1 := { m0.state with
                    appState := AppState.FIXED,
                    currentApp := nextApp,
                    cachedNextApp := -1,
                    ticksSinceLastStateSwitch := 0 }
        let m1 := { m0 with state := s1 }
        let m2 :=
          if m1.state.currentApp < (m1.apps.length : Int) ∧
              (getAppD m1.apps m1.state.currentApp).duration > 0 then
            { m1 with ticksPerApp :=
                cTrunc (((getAppD m1.apps m1.state.currentApp).duration : ℚ) / m1.updateInterval) }
          else
            { m1 with ticksPerApp := cTrunc ((m1.TIME_PER_APP : ℚ) / m1.updateInterval) }
        (m2, 0)
      else (m0, 0)
    | AppState.FIXED =>
      let m1 :=
        if m0.state.manuelControll then
          { m0 with state := { m0.state with
                               appTransitionDirection := m0.lastTransitionDirection,
                               manuelControll := false } }
        else m0
      if m1.state.ticksSinceLastStateSwitch ≥ m1.ticksPerApp then
        if m1.setAutoTransition ∧ m1._enabledAppCount > 1 then
          let r := getNextAppNumber m1
          ({ r.2 with state := { r.2.state with
                                 appState := AppState.IN_TRANSITION,
                                 cachedNextApp := r.1,
                                 ticksSinceLastStateSwitch := 0 } }, 1)
        else
          ({ m1 with state := { m1.state with ticksSinceLastStateSwitch := 0 } }, 0)
      else (m1, 0)
  else (m0, 0)

/-- One scheduler operation, instrumented with its `getNextAppNumber`
call count. -/
def stepC : SchedOp → MatrixDisplayUi → MatrixDisplayUi × Nat
  | SchedOp.next, m => nextAppC m
  | SchedOp.prev, m => previousAppC m
  | SchedOp.trans a, m => transitionToAppC a m
  | SchedOp.tick, m => tickC m

/-- One scheduler operation, state effect only. -/
def stepOp (op : SchedOp) (m : MatrixDisplayUi) : MatrixDisplayUi := (stepC op m).1

/-- Embedding of `MatrixDisplayUi::tick`, state effect only. -/
def tick (m : MatrixDisplayUi) : MatrixDisplayUi := (tickC m).1

/-- The function `tick` iterated `n` times. -/
def tickIter : Nat → MatrixDisplayUi → MatrixDisplayUi
  | 0, m => m
  | n + 1, m => tickIter n (tick m)

/-- Whether an operation begins a transition (sets a fresh
`cachedNextApp`): read off the branch structure of the source. -/
def beginsTransition : SchedOp → MatrixDisplayUi → Bool
  | SchedOp.next, m => m.state.appState != AppState.IN_TRANSITION
  | SchedOp.prev, m => m.state.appState != AppState.IN_TRANSITION
  | SchedOp.trans a, m =>
      decide ((a : Int) < m.AppCount) && decide ((a : Int) ≠ m.state.currentApp)
  | SchedOp.tick, m =>
      (m.state.appState == AppState.FIXED) && decide (m.AppCount > 0) &&
      decide (m.state.ticksSinceLastStateSwitch + 1 ≥ m.ticksPerApp) &&
      m.setAutoTransition && decide (m._enabledAppCount > 1)

/-- Total `getNextAppNumber` calls along a sequence of operations. -/
def runCalls : List SchedOp → MatrixDisplayUi → MatrixDisplayUi × Nat
  | [], m => (m, 0)
  | op :: l, m => ((runCalls l (stepC op m).1).1, (stepC op m).2 + (runCalls l (stepC op m).1).2)

/-- Number of transition-begins along a sequence of operations. -/
def beginsCount : List SchedOp → MatrixDisplayUi → Nat
  | [], _ => 0
  | op :: l, m => (if beginsTransition op m then 1 else 0) + beginsCount l (stepOp op m)

/-- Embedding of `MatrixDisplayUi::update` (frame pacing).  `now` is the value
`millis()` returns at entry; the `int8_t` return value (a hint for an
optional caller delay) carries no state and is not modelled. -/
def update (now : Nat) (m : MatrixDisplayUi) : MatrixDisplayUi :=
  let timeBudget : Int := cTrunc m.updateInterval - toLong (u32sub now m.state.lastUpdate)
  if timeBudget ≤ 0 then
    let m1 :=
      if m.state.lastUpdate ≠ 0 then
        { m with state := { m.state with ticksSinceLastStateSwitch :=
            m.state.ticksSinceLastStateSwitch + (-timeBudget).tdiv (cTrunc m.updateInterval) } }
      else m
    tick { m1 with state := { m1.state with lastUpdate := now % 2 ^ 32 } }
  else m

/-!  Liveview (Liveview.cpp): frame capture and change-detection.  -/

/-- One `CRGB` pixel of the FastLED buffer (bytes `r`, `g`, `b`). -/
structure CRGB where
  r : Nat
  g : Nat
  b : Nat
deriving DecidableEq, Repr

/-- Constant `MATRIX_WIDTH` (Globals.h). -/
def MATRIX_WIDTH : Nat := 32

/-- Constant `MATRIX_HEIGHT` (Globals.h). -/
def MATRIX_HEIGHT : Nat := 8

/-- The fixed ASCII marker the buffer starts with
(`Liveview::_LIVEVIEW_PREFIX`, the three bytes of "LV:"). -/
def liveviewMarker : List Nat := [0x4C, 0x56, 0x3A]

/-- One bit step of the reflected CRC-32 (polynomial 0xEDB88320). -/
def crcBit (c : Nat) : Nat := if c % 2 = 1 then (c / 2) ^^^ 0xEDB88320 else c / 2

/-- Iterating `n` bit steps of the CRC register. -/
def crcBits : Nat → Nat → Nat
  | 0, c => c
  | n + 1, c => crcBits n (crcBit c)

/-- Feed one byte into the CRC register. -/
def crc32byte (c b : Nat) : Nat := crcBits 8 (c ^^^ b % 256)

/-- The external `CRC32::calculate` collaborator: the standard 32-bit
cyclic redundancy check (reflected, init and final xor 0xFFFFFFFF). -/
def crc32 (data : List Nat) : Nat := (data.foldl crc32byte 0xFFFFFFFF) ^^^ 0xFFFFFFFF

/-- The pixel byte region `fillBuffer` writes after the marker: for
each row `y` and column `x`, the `r`, `g`, `b` bytes of
`leds[matrix->XY(x, y)]`.  The logical-to-physical map `XY` is the
external matrix driver's. -/
def pixelBytes (XY : Nat → Nat → Nat) (leds : Nat → CRGB) : List Nat :=
  (List.range MATRIX_HEIGHT).flatMap (fun y =>
    (List.range MATRIX_WIDTH).flatMap (fun x =>
      [(leds (XY x y)).r, (leds (XY x y)).g, (leds (XY x y)).b]))

/-- Embedding of `Liveview::fillBuffer` (Liveview.cpp): write the marker, then the
pixel bytes, compute the checksum over the filled region
(`_liveviewBuffer` from its start, `totalLen` bytes), and invoke the
publish callback only when it differs from `_lastChecksum`, recording
the transmitted value.  Result: the new `_lastChecksum` and the bytes
handed to the callback (`none` = callback not invoked). -/
def fillBuffer (XY : Nat → Nat → Nat) (leds : Nat → CRGB) (lastChecksum : Nat) :
    Nat × Option (List Nat) :=
  let buf := liveviewMarker ++ pixelBytes XY leds
  let newChecksum := crc32 buf
  if lastChecksum ≠ newChecksum then (newChecksum, some buf) else (lastChecksum, none)

/-- The checksum the spec describes for C8: the CRC over the pixel byte
region only, the marker excluded. -/
def checksumSpecC8 (XY : Nat → Nat → Nat) (leds : Nat → CRGB) : Nat :=
  crc32 (pixelBytes XY leds)

/-!  PeripheryManager (part_001): audio-spectrum consumer.  -/

/-- Constant `FFT_NUM_BANDS` (Globals.h). -/
def FFT_NUM_BANDS : Nat := 32

/-- The spectrum-sharing state of `PeripheryManager_`:
whether `_audioMutex` was created, whether a zero-wait
`xSemaphoreTake(_audioMutex, 0)` would succeed right now (the producer
is not inside its critical section), and the published `_sharedBands`. -/
structure SpectrumSt where
  audioMutexCreated : Bool
  audioMutexFree : Bool
  sharedBands : List Nat
deriving DecidableEq, Repr

/-- Embedding of `PeripheryManager_::getSpectrumData(uint8_t*, int)` (part_001).
The caller's buffer is modelled as the byte memory `outputBands`
indexed from the pointer it passes; `memcpy` fills bytes
`[0, count)` from `_sharedBands` and `memset` zeroes `[count,
numBands)` when more bands were requested than exist.  Returns the
`bool` result and the buffer after the call. -/
def getSpectrumData (st : SpectrumSt) (outputBands : Nat → Nat) (numBands : Int) :
    Bool × (Nat → Nat) :=
  if ¬ st.audioMutexCreated then (false, outputBands)
  else if st.audioMutexFree then
    let count : Int := if numBands < (FFT_NUM_BANDS : Int) then numBands else FFT_NUM_BANDS
    let out := fun (i : Nat) =>
      if (i : Int) < count then st.sharedBands.getD i 0
      else if (i : Int) < numBands then 0
      else outputBands i
    (true, out)
  else (false, outputBands)

/-!  Spec-side definition for the C3 refinement comparison.  -/

/-- The next-page selection as the spec words it (C3): the ordered list
of all enabled page indices (no cap), the position of `current_index`
within it, one step by the transition direction with wraparound modulo
the enabled count, 0 when no page is enabled. -/
def nextAppSpecC3 (m : MatrixDisplayUi) : Int :=
  let enabledIndices := (List.range m.apps.length).filter
    (fun i => (m.apps.getD i ⟨false, 0, 0⟩).enabled)
  if enabledIndices.length = 0 then 0
  else
    let currentPos :=
      match enabledIndices.findIdx? (fun i => (i : Int) == m.state.currentApp) with
      | some p => p
      | none => 0
    let nextPos :=
      ((currentPos : Int) + m.state.appTransitionDirection).emod (enabledIndices.length : Int)
    ((enabledIndices.getD nextPos.toNat 0 : Int))

/-- The draw-target selection of `MatrixDisplayUi::drawApp`
(Liveview-independent render path): which app indices the draw
callbacks are invoked with.  During a transition an out-of-range
`cachedNextApp` falls back to `currentApp`. -/
def drawAppTargets (m : MatrixDisplayUi) : List Int :=
  if m.apps.isEmpty then []
  else
    match m.state.appState with
    | AppState.IN_TRANSITION =>
      let nextApp :=
        if m.state.cachedNextApp < 0 ∨ m.state.cachedNextApp ≥ (m.apps.length : Int) then
          m.state.currentApp
        else m.state.cachedNextApp
      (if m.state.currentApp < (m.apps.length : Int) then [m.state.currentApp] else []) ++
        (if nextApp < (m.apps.length : Int) then [nextApp] else [])
    | AppState.FIXED =>
      if m.state.currentApp < (m.apps.length : Int) then [m.state.currentApp] else []

/-!  C7 and C8: Liveview checksum region and deduplication.  -/

/-- A row-major logical-to-physical map, a concrete instance of the
matrix driver collaborator for the closed counterexample. -/
def xyRow : Nat → Nat → Nat := fun x y => y * 32 + x

/-- The all-black frame buffer. -/
def ledsZero : Nat → CRGB := fun _ => CRGB.mk 0 0 0

/-- Feeding `n` zero bytes into the CRC register one at a time (a helper to
evaluate the 768-byte pixel region in bounded-depth chunks). -/
def crcZeroIter : Nat → Nat → Nat
  | 0, c => c
  | n + 1, c => crcZeroIter n (crc32byte c 0)

theorem foldl_replicate_zero (n : Nat) : ∀ c, List.foldl crc32byte c (List.replicate n 0) = crcZeroIter n c := by
  induction n with
  | zero => intro c; rfl
  | succ k ih =>
    intro c
    simp only [List.replicate, List.foldl_cons]
    exact ih (crc32byte c 0)

theorem crcZeroIter_add (a b : Nat) : ∀ c, crcZeroIter (a + b) c = crcZeroIter b (crcZeroIter a c) := by
  induction a with
  | zero => intro c; rw [Nat.zero_add]; rfl
  | succ k ih =>
    intro c
    have h1 : k + 1 + b = (k + b) + 1 := by omega
    rw [h1]
    show crcZeroIter (k + b) (crc32byte c 0) = _
    rw [ih (crc32byte c 0)]
    rfl

set_option maxRecDepth 6000 in
theorem pixelBytes_zero : pixelBytes xyRow ledsZero = List.replicate 768 0 := by decide

set_option maxRecDepth 6000 in
theorem marker_foldl : List.foldl crc32byte 4294967295 liveviewMarker = 1406365993 := by decide

set_option maxRecDepth 6000 in
theorem crcChainFull : crcZeroIter 768 1406365993 = 1887680539 := by
  have e0 : crcZeroIter 48 1406365993 = 3609958560 := by decide
  have e1 : crcZeroIter 48 3609958560 = 712698343 := by decide
  have e2 : crcZeroIter 48 712698343 = 1523920835 := by decide
  have e3 : crcZeroIter 48 1523920835 = 1686366162 := by decide
  have e4 : crcZeroIter 48 1686366162 = 3564587784 := by decide
  have e5 : crcZeroIter 48 3564587784 = 949469170 := by decide
  have e6 : crcZeroIter 48 949469170 = 3285094268 := by decide
  have e7 : crcZeroIter 48 3285094268 = 3615441663 := by decide
  have e8 : crcZeroIter 48 3615441663 = 1748471227 := by decide
  have e9 : crcZeroIter 48 1748471227 = 1667273156 := by decide
  have e10 : crcZeroIter 48 1667273156 = 2735612729 := by decide
  have e11 : crcZeroIter 48 2735612729 = 2393254711 := by decide
  have e12 : crcZeroIter 48 2393254711 = 123428965 := by decide
  have e13 : crcZeroIter 48 123428965 = 396143601 := by decide
  have e14 : crcZeroIter 48 396143601 = 2703722026 := by decide
  have e15 : crcZeroIter 48 2703722026 = 1887680539 := by decide
  have h0 : (768 : Nat) = 48 + 720 := by norm_num
  rw [h0, crcZeroIter_add, e0]
  have h1 : (720 : Nat) = 48 + 672 := by norm_num
  rw [h1, crcZeroIter_add, e1]
  have h2 : (672 : Nat) = 48 + 624 := by norm_num
  rw [h2, crcZeroIter_add, e2]
  have h3 : (624 : Nat) = 48 + 576 := by norm_num
  rw [h3, crcZeroIter_add, e3]
  have h4 : (576 : Nat) = 48 + 528 := by norm_num
  rw [h4, crcZeroIter_add, e4]
  have h5 : (528 : Nat) = 48 + 480 := by norm_num
  rw [h5, crcZeroIter_add, e5]
  have h6 : (480 : Nat) = 48 + 432 := by norm_num
  rw [h6, crcZeroIter_add, e6]
  have h7 : (432 : Nat) = 48 + 384 := by norm_num
  rw [h7, crcZeroIter_add, e7]
  have h8 : (384 : Nat) = 48 + 336 := by norm_num
  rw [h8, crcZeroIter_add, e8]
  have h9 : (336 : Nat) = 48 + 288 := by norm_num
  rw [h9, crcZeroIter_add, e9]
  have h10 : (288 : Nat) = 48 + 240 := by norm_num
  rw [h10, crcZeroIter_add, e10]
  have h11 : (240 : Nat) = 48 + 192 := by norm_num
  rw [h11, crcZeroIter_add, e11]
  have h12 : (192 : Nat) = 48 + 144 := by norm_num
  rw [h12, crcZeroIter_add, e12]
  have h13 : (144 : Nat) = 48 + 96 := by norm_num
  rw [h13, crcZeroIter_add, e13]
  have h14 : (96 : Nat) = 48 + 48 := by norm_num
  rw [h14, crcZeroIter_add, e14]
  exact e15

set_option maxRecDepth 6000 in
theorem crcChainPixels : crcZeroIter 768 4294967295 = 174001130 := by
  have e0 : crcZeroIter 48 4294967295 = 225922154 := by decide
  have e1 : crcZeroIter 48 225922154 = 1158388305 := by decide
  have e2 : crcZeroIter 48 1158388305 = 2415262307 := by decide
  have e3 : crcZeroIter 48 2415262307 = 1946220301 := by decide
  have e4 : crcZeroIter 48 1946220301 = 1134484460 := by decide
  have e5 : crcZeroIter 48 1134484460 = 336434605 := by decide
  have e6 : crcZeroIter 48 336434605 = 3537327982 := by decide
  have e7 : crcZeroIter 48 3537327982 = 2001022648 := by decide
  have e8 : crcZeroIter 48 2001022648 = 1223022955 := by decide
  have e9 : crcZeroIter 48 1223022955 = 71646322 := by decide
  have e10 : crcZeroIter 48 71646322 = 3515206665 := by decide
  have e11 : crcZeroIter 48 3515206665 = 3155420940 := by decide
  have e12 : crcZeroIter 48 3155420940 = 2697810442 := by decide
  have e13 : crcZeroIter 48 2697810442 = 911164814 := by decide
  have e14 : crcZeroIter 48 911164814 = 10554966 := by decide
  have e15 : crcZeroIter 48 10554966 = 174001130 := by decide
  have h0 : (768 : Nat) = 48 + 720 := by norm_num
  rw [h0, crcZeroIter_add, e0]
  have h1 : (720 : Nat) = 48 + 672 := by norm_num
  rw [h1, crcZeroIter_add, e1]
  have h2 : (672 : Nat) = 48 + 624 := by norm_num
  rw [h2, crcZeroIter_add, e2]
  have h3 : (624 : Nat) = 48 + 576 := by norm_num
  rw [h3, crcZeroIter_add, e3]
  have h4 : (576 : Nat) = 48 + 528 := by norm_num
  rw [h4, crcZeroIter_add, e4]
  have h5 : (528 : Nat) = 48 + 480 := by norm_num
  rw [h5, crcZeroIter_add, e5]
  have h6 : (480 : Nat) = 48 + 432 := by norm_num
  rw [h6, crcZeroIter_add, e6]
  have h7 : (432 : Nat) = 48 + 384 := by norm_num
  rw [h7, crcZeroIter_add, e7]
  have h8 : (384 : Nat) = 48 + 336 := by norm_num
  rw [h8, crcZeroIter_add, e8]
  have h9 : (336 : Nat) = 48 + 288 := by norm_num
  rw [h9, crcZeroIter_add, e9]
  have h10 : (288 : Nat) = 48 + 240 := by norm_num
  rw [h10, crcZeroIter_add, e10]
  have h11 : (240 : Nat) = 48 + 192 := by norm_num
  rw [h11, crcZeroIter_add, e11]
  have h12 : (192 : Nat) = 48 + 144 := by norm_num
  rw [h12, crcZeroIter_add, e12]
  have h13 : (144 : Nat) = 48 + 96 := by norm_num
  rw [h13, crcZeroIter_add, e13]
  have h14 : (96 : Nat) = 48 + 48 := by norm_num
  rw [h14, crcZeroIter_add, e14]
  exact e15

theorem crc_full_value : crc32 (liveviewMarker ++ pixelBytes xyRow ledsZero) = 2407286756 := by
  rw [crc32, pixelBytes_zero, List.foldl_append, marker_foldl, foldl_replicate_zero, crcChainFull]
  decide

theorem crc_pixels_value : checksumSpecC8 xyRow ledsZero = 4120966165 := by
  rw [checksumSpecC8, crc32, pixelBytes_zero, foldl_replicate_zero, crcChainPixels]
  decide

/-- After any capture, `_lastChecksum` equals the CRC over the whole
filled buffer (shared helper for the Liveview claims). -/
theorem fillBuffer_fst (XY : Nat → Nat → Nat) (leds : Nat → CRGB) (lastChecksum : Nat) :
    (fillBuffer XY leds lastChecksum).1 = crc32 (liveviewMarker ++ pixelBytes XY leds) := by
  rw [fillBuffer]
  by_cases h : lastChecksum ≠ crc32 (liveviewMarker ++ pixelBytes XY leds)
  · simp [h]
  · push_neg at h
    simp [h]

/-- C8 (counterexample): on the all-black frame with a row-major index
map, the checksum `fillBuffer` records and deduplicates against is not
the CRC over the pixel byte region alone — the 3-byte ASCII marker is
part of the checksummed region (`CRC32::calculate` is applied to
`_liveviewBuffer` from its start for `totalLen` bytes). -/
theorem c8_checksum_includes_marker : (fillBuffer xyRow ledsZero 0).1 ≠ checksumSpecC8 xyRow ledsZero := by
  have h : (fillBuffer xyRow ledsZero 0).1 = 2407286756 := by
    rw [fillBuffer]
    simp only [crc_full_value]
    norm_num
  rw [h, crc_pixels_value]
  norm_num

/-- C8 (amended): the telemetry change-detection checksum is the
standard 32-bit CRC computed over the entire filled buffer — the fixed
ASCII marker followed by the pixel byte region — not over the pixel
bytes alone; the recorded `_lastChecksum` always equals that CRC after
a capture, in both the transmit and the no-change branch. -/
theorem c8_checksum_region (XY : Nat → Nat → Nat) (leds : Nat → CRGB) (lastChecksum : Nat) :
    (fillBuffer XY leds lastChecksum).1 = crc32 (liveviewMarker ++ pixelBytes XY leds) ∧
    ((fillBuffer XY leds lastChecksum).2 = none ∨
      (fillBuffer XY leds lastChecksum).2 = some (liveviewMarker ++ pixelBytes XY leds)) := by
  refine ⟨fillBuffer_fst XY leds lastChecksum, ?_⟩
  rw [fillBuffer]
  by_cases h : lastChecksum ≠ crc32 (liveviewMarker ++ pixelBytes XY leds)
  · simp [h]
  · push_neg at h
    simp [h]

/-- C7 (confirmed): the captured frame is handed to the publish
callback exactly when the newly computed checksum differs from the
last transmitted one, and a second capture of an unchanged frame
buffer recomputes the identical checksum and publishes nothing — at
most one publish per checksum value. -/
theorem c7_dedup_idempotent (XY : Nat → Nat → Nat) (leds : Nat → CRGB) (lastChecksum : Nat) :
    ((fillBuffer XY leds lastChecksum).2 ≠ none ↔
      crc32 (liveviewMarker ++ pixelBytes XY leds) ≠ lastChecksum) ∧
    fillBuffer XY leds (fillBuffer XY leds lastChecksum).1 =
      ((fillBuffer XY leds lastChecksum).1, none) := by
  constructor
  · rw [fillBuffer]
    by_cases h : lastChecksum ≠ crc32 (liveviewMarker ++ pixelBytes XY leds)
    · simp [h]
      exact fun he => h he.symm
    · push_neg at h
      simp [h]
  · rw [fillBuffer_fst XY leds lastChecksum, fillBuffer]
    simp

/-- C7 witness: a concrete double capture of the all-black frame
publishes nothing the second time. -/
theorem c7_dedup_witness :
    fillBuffer xyRow ledsZero (fillBuffer xyRow ledsZero 0).1 =
      ((fillBuffer xyRow ledsZero 0).1, none) :=
  (c7_dedup_idempotent xyRow ledsZero 0).2

/-!  Scheduler claims.  -/

/-- Embedding of `MatrixDisplayUi::transitionToApp`, state effect only. -/
def transitionToApp (a : Nat) (m : MatrixDisplayUi) : MatrixDisplayUi := (transitionToAppC a m).1

/-- C10 (confirmed): `transitionToApp` with an out-of-range index is a
no-op on the whole scheduler state; with the current index it resets
only the dwell counter `ticksSinceLastStateSwitch` to 0, leaving the
state machine, the cache, the queued manual target and every other
field unchanged and beginning no transition. -/
theorem c10_transitionToApp_edges (m : MatrixDisplayUi) (a : Nat) :
    ((a : Int) ≥ m.AppCount → transitionToApp a m = m) ∧
    ((a : Int) < m.AppCount → (a : Int) = m.state.currentApp →
      transitionToApp a m =
        { m with state := { m.state with ticksSinceLastStateSwitch := 0 } }) := by
  constructor
  · intro h
    simp [transitionToApp, transitionToAppC, h]
  · intro h1 h2
    rw [transitionToApp, transitionToAppC, if_neg (by omega)]
    simp [h2]

/-- C10 witness: a concrete two-app scheduler, out-of-range index 5 and
current index 0. -/
theorem c10_transitionToApp_edges_witness :
    (transitionToApp 5
        ⟨⟨AppState.FIXED, 0, 7, 1, false, 0, -1⟩, [⟨true, 0, 0⟩, ⟨true, 1, 0⟩], 2, 150, 12,
          (100 : ℚ) / 3, -1, 1, true, 2, 5000⟩ =
      ⟨⟨AppState.FIXED, 0, 7, 1, false, 0, -1⟩, [⟨true, 0, 0⟩, ⟨true, 1, 0⟩], 2, 150, 12,
          (100 : ℚ) / 3, -1, 1, true, 2, 5000⟩) ∧
    (transitionToApp 0
        ⟨⟨AppState.FIXED, 0, 7, 1, false, 0, -1⟩, [⟨true, 0, 0⟩, ⟨true, 1, 0⟩], 2, 150, 12,
          (100 : ℚ) / 3, -1, 1, true, 2, 5000⟩ =
      ⟨⟨AppState.FIXED, 0, 0, 1, false, 0, -1⟩, [⟨true, 0, 0⟩, ⟨true, 1, 0⟩], 2, 150, 12,
          (100 : ℚ) / 3, -1, 1, true, 2, 5000⟩) :=
  ⟨(c10_transitionToApp_edges _ 5).1 (by decide),
   (c10_transitionToApp_edges _ 0).2 (by decide) (by decide)⟩

/-- C9 (confirmed): the spectrum consumer acquires the band mutex with
a zero-wait policy; on success it returns `true` with the caller's
bytes `[0, min numBands FFT_NUM_BANDS)` copied from the published
`_sharedBands` (zero-filling `[count, numBands)` when more bands are
requested than exist) and the rest untouched; on failure — no mutex,
or the producer holds it — it returns `false` and leaves every byte of
the caller's buffer unchanged. -/
theorem c9_getSpectrumData_nonblocking (st : SpectrumSt) (outputBands : Nat → Nat) (numBands : Int) :
    (¬ (st.audioMutexCreated = true ∧ st.audioMutexFree = true) →
      getSpectrumData st outputBands numBands = (false, outputBands)) ∧
    (st.audioMutexCreated = true → st.audioMutexFree = true →
      (getSpectrumData st outputBands numBands).1 = true ∧
      (∀ i : Nat, (i : Int) < numBands → (i : Int) < (FFT_NUM_BANDS : Int) →
        (getSpectrumData st outputBands numBands).2 i = st.sharedBands.getD i 0) ∧
      (∀ i : Nat, (i : Int) ≥ numBands →
        (getSpectrumData st outputBands numBands).2 i = outputBands i)) := by
  constructor
  · intro h
    unfold getSpectrumData
    rcases Bool.eq_false_or_eq_true st.audioMutexCreated with hc | hc
    · rcases Bool.eq_false_or_eq_true st.audioMutexFree with hf | hf
      · exact absurd ⟨hc, hf⟩ h
      · simp [hc, hf]
    · simp [hc]
  · intro hc hf
    unfold getSpectrumData
    rw [if_neg (by simp [hc]), if_pos hf]
    refine ⟨rfl, ?_, ?_⟩
    · intro i h1 h2
      have hcount : (i : Int) <
          (if numBands < (FFT_NUM_BANDS : Int) then numBands else (FFT_NUM_BANDS : Int)) := by
        split <;> omega
      show (if (i : Int) < _ then st.sharedBands.getD i 0
            else if (i : Int) < numBands then 0 else outputBands i) = st.sharedBands.getD i 0
      rw [if_pos hcount]
    · intro i h1
      have hcount : ¬ ((i : Int) <
          (if numBands < (FFT_NUM_BANDS : Int) then numBands else (FFT_NUM_BANDS : Int))) := by
        split <;> omega
      show (if (i : Int) < _ then st.sharedBands.getD i 0
            else if (i : Int) < numBands then 0 else outputBands i) = outputBands i
      rw [if_neg hcount, if_neg (by omega)]

/-- C9 witness: with the producer inside its critical section the call
fails and the caller's buffer is untouched; with the mutex free the
copy succeeds. -/
theorem c9_getSpectrumData_nonblocking_witness :
    getSpectrumData ⟨true, false, List.range 32⟩ (fun _ => 7) 32 = (false, fun _ => 7) ∧
    (getSpectrumData ⟨true, true, List.range 32⟩ (fun _ => 7) 32).1 = true ∧
    (getSpectrumData ⟨true, true, List.range 32⟩ (fun _ => 7) 32).2 5 = 5 ∧
    (getSpectrumData ⟨true, true, List.range 32⟩ (fun _ => 7) 32).2 40 = 7 :=
  ⟨(c9_getSpectrumData_nonblocking ⟨true, false, List.range 32⟩ (fun _ => 7) 32).1
      (by simp),
   ((c9_getSpectrumData_nonblocking ⟨true, true, List.range 32⟩ (fun _ => 7) 32).2 rfl rfl).1,
   by
    have h := ((c9_getSpectrumData_nonblocking ⟨true, true, List.range 32⟩ (fun _ => 7) 32).2
      rfl rfl).2.1 5 (by decide) (by decide)
    simpa using h,
   by
    have h := ((c9_getSpectrumData_nonblocking ⟨true, true, List.range 32⟩ (fun _ => 7) 32).2
      rfl rfl).2.2 40 (by decide)
    simpa using h⟩

/-- With no registered apps the state machine is skipped: a tick only
increments the tick counter (helper). -/
theorem tick_appcount0 (m : MatrixDisplayUi) (h : m.AppCount = 0) :
    tick m = { m with state := { m.state with
      ticksSinceLastStateSwitch := m.state.ticksSinceLastStateSwitch + 1 } } := by
  rw [tick, tickC]
  simp [h]

/-- C4 (confirmed): `update` computes the time budget in unbounded
signed arithmetic (the source's `long`, at least 32 bits — the
hypotheses keep every intermediate within the 32-bit signed range, so
`Int` coincides with it), fires a tick when the budget is ≤ 0, and adds
the lateness in whole target intervals, plus the fired tick's own
increment, to `ticksSinceLastStateSwitch` — exactly
`(elapsed - interval).tdiv interval + 1`, with no clamping and no
narrow-type wraparound. -/
theorem c4_catchup_compensation (m : MatrixDisplayUi) (now : Nat)
    (h0 : m.state.lastUpdate ≠ 0)
    (hlt : m.state.lastUpdate < 2 ^ 32)
    (hnow : now < 2 ^ 32)
    (hle : m.state.lastUpdate ≤ now)
    (hsm : now - m.state.lastUpdate < 2 ^ 31)
    (hI : 0 < cTrunc m.updateInterval)
    (hbud : cTrunc m.updateInterval ≤ ((now - m.state.lastUpdate : Nat) : Int))
    (hac : m.AppCount = 0) :
    (update now m).state.ticksSinceLastStateSwitch =
      m.state.ticksSinceLastStateSwitch +
        (((now - m.state.lastUpdate : Nat) : Int) - cTrunc m.updateInterval).tdiv
          (cTrunc m.updateInterval) + 1 ∧
    (update now m).state.lastUpdate = now % 2 ^ 32 := by
  have hsub : u32sub now m.state.lastUpdate = now - m.state.lastUpdate := by
    rw [u32sub, Nat.mod_eq_of_lt hnow, Nat.mod_eq_of_lt hlt]
    omega
  have htl : toLong (u32sub now m.state.lastUpdate) = ((now - m.state.lastUpdate : Nat) : Int) := by
    rw [hsub, toLong, if_pos (by omega)]
    omega
  rw [update]
  simp only [htl]
  rw [if_pos (by omega), if_pos h0]
  rw [tick_appcount0 _ (by simpa using hac)]
  constructor
  · dsimp
    congr 2
    ring_nf
  · dsimp

/-- A concrete scheduler 400 ms late at a 33 ms target interval (no
apps registered, so only the pacing arithmetic acts). -/
def c4state : MatrixDisplayUi :=
  ⟨⟨AppState.FIXED, 0, 0, 1, false, 1000, -1⟩, [], 0, 150, 12, 33, -1, 1, true, 0, 5000⟩

/-- C4 witness: at `now = 1433` with `lastUpdate = 1000` the budget is
`33 - 433 = -400 ≤ 0` and exactly `⌈400/33⌉ = 13` ticks are added. -/
theorem c4_catchup_witness :
    (update 1433 c4state).state.ticksSinceLastStateSwitch = 13 ∧
    (update 1433 c4state).state.lastUpdate = 1433 := by
  have h := c4_catchup_compensation c4state 1433 (by decide) (by decide) (by decide)
    (by decide) (by decide) (by decide) (by decide) (by decide)
  refine ⟨?_, ?_⟩
  · rw [h.1]
    decide
  · rw [h.2]
    decide


/-- A mid-transition tick (before the transition's tick budget is
reached) only advances the counter (helper). -/
theorem tick_trans_progress (m : MatrixDisplayUi)
    (h1 : m.state.appState = AppState.IN_TRANSITION)
    (hc : m.AppCount > 0)
    (h2 : m.state.ticksSinceLastStateSwitch + 1 < m.ticksPerTransition) :
    tick m = { m with state := { m.state with
      ticksSinceLastStateSwitch := m.state.ticksSinceLastStateSwitch + 1 } } := by
  rw [tick, tickC]
  dsimp only
  rw [if_pos hc, h1]
  dsimp only
  rw [if_neg (by omega)]

/-- A fixed-state tick with dwell budget not yet reached and no pending
manual-control restore only advances the counter (helper). -/
theorem tick_fixed_idle (m : MatrixDisplayUi)
    (h1 : m.state.appState = AppState.FIXED)
    (hm : m.state.manuelControll = false)
    (hc : m.AppCount > 0)
    (h2 : m.state.ticksSinceLastStateSwitch + 1 < m.ticksPerApp) :
    tick m = { m with state := { m.state with
      ticksSinceLastStateSwitch := m.state.ticksSinceLastStateSwitch + 1 } } := by
  rw [tick, tickC]
  dsimp only
  rw [if_pos hc, h1]
  dsimp only
  rw [hm]
  rw [if_neg (show ¬ (false = true) from by simp)]
  rw [if_neg (by dsimp only; omega)]

/-- C5 (amended): when a transition completes with an out-of-range
cached next index, `tick` falls back to app index 0 — not to the
current index — which is in range for a nonempty registry, clears the
cache, and returns to `FIXED`; the render path `drawApp` is the one
that falls back to the current index, drawing the current page twice.
No out-of-range index is ever used. -/
theorem c5_completion_fallback (m : MatrixDisplayUi)
    (h1 : m.state.appState = AppState.IN_TRANSITION)
    (hc : m.AppCount > 0)
    (h2 : m.state.ticksSinceLastStateSwitch + 1 ≥ m.ticksPerTransition)
    (hoob : m.state.cachedNextApp < 0 ∨ m.state.cachedNextApp ≥ (m.apps.length : Int))
    (hne : m.apps ≠ [])
    (hcur : m.state.currentApp < (m.apps.length : Int)) :
    (tick m).state.appState = AppState.FIXED ∧
    (tick m).state.currentApp = 0 ∧
    (tick m).state.cachedNextApp = -1 ∧
    0 ≤ (tick m).state.currentApp ∧
    (tick m).state.currentApp < (m.apps.length : Int) ∧
    drawAppTargets m = [m.state.currentApp, m.state.currentApp] := by
  have hlen : 0 < m.apps.length := List.length_pos.mpr hne
  have hdt : drawAppTargets m = [m.state.currentApp, m.state.currentApp] := by
    rw [drawAppTargets]
    rw [if_neg (by simp [List.isEmpty_iff, hne])]
    rw [h1]
    dsimp only
    rw [if_pos hoob]
    rw [if_pos hcur]
    rfl
  rw [tick, tickC]
  dsimp only
  rw [if_pos hc, h1]
  dsimp only
  rw [if_pos (by omega), if_pos hoob]
  dsimp only
  refine ⟨?_, ?_, ?_, ?_, ?_, hdt⟩ <;>
    (split <;> dsimp only) <;> first | rfl | omega

/-- A two-app registry mid-transition whose cached next index 5 is out
of range, the transition completing on the next tick, with current
index 1. -/
def c5state : MatrixDisplayUi :=
  ⟨⟨AppState.IN_TRANSITION, 1, 0, 1, true, 0, 5⟩, [⟨true, 0, 0⟩, ⟨true, 1, 0⟩], 2, 150, 1,
    (100 : ℚ) / 3, -1, 1, true, 2, 5000⟩

/-- C5 (counterexample): the transition completes with out-of-range
cached index 5 and the scheduler lands on app 0, not on the current
index 1 — the completion fallback is index 0, contradicting the claim
that it falls back to the current index. -/
theorem c5_fallback_counterexample :
    c5state.state.appState = AppState.IN_TRANSITION ∧
    c5state.state.cachedNextApp ≥ (c5state.apps.length : Int) ∧
    c5state.state.ticksSinceLastStateSwitch + 1 ≥ c5state.ticksPerTransition ∧
    (tick c5state).state.appState = AppState.FIXED ∧
    (tick c5state).state.currentApp ≠ c5state.state.currentApp := by decide

/-- C5 witness: the amended fallback behaviour at the concrete
shrunken-registry state. -/
theorem c5_completion_fallback_witness :
    (tick c5state).state.currentApp = 0 ∧ drawAppTargets c5state = [1, 1] := by
  have h := c5_completion_fallback c5state rfl (by decide) (by decide) (by decide)
    (by decide) (by decide)
  refine ⟨h.2.1, ?_⟩
  rw [h.2.2.2.2.2]
  decide

/-- Embedding of `MatrixDisplayUi::_rebuildEnabledCount`: recompute the cached
enabled-app count. -/
def _rebuildEnabledCount (m : MatrixDisplayUi) : MatrixDisplayUi :=
  { m with _enabledAppCount := ((m.apps.filter (fun a => a.enabled)).length : Int) }

/-- Embedding of `MatrixDisplayUi::setApps`: replace the registry, refresh
`AppCount` and the cached enabled count. -/
def setApps (appList : List AppData) (m : MatrixDisplayUi) : MatrixDisplayUi :=
  _rebuildEnabledCount { m with apps := appList, AppCount := (appList.length : Int) }

/-- One tick preserves `FIXED` and the cached enabled count when at
most one page is enabled (helper). -/
theorem tick_single_enabled_step (m : MatrixDisplayUi)
    (h1 : m.state.appState = AppState.FIXED)
    (hcnt : m._enabledAppCount = 1) :
    (tick m).state.appState = AppState.FIXED ∧ (tick m)._enabledAppCount = 1 := by
  rw [tick, tickC]
  dsimp only
  by_cases hac : m.AppCount > 0
  · rw [if_pos hac, h1]
    dsimp only
    split
    · split
      · rw [if_neg (by dsimp only; omega)]
        exact ⟨rfl, hcnt⟩
      · exact ⟨rfl, hcnt⟩
    · split
      · rw [if_neg (by dsimp only; omega)]
        exact ⟨rfl, hcnt⟩
      · exact ⟨rfl, hcnt⟩
  · rw [if_neg hac]
    exact ⟨h1, hcnt⟩

/-- C6 (confirmed): with exactly one enabled page (and the cached
enabled count consistent with the registry, as `setApps` establishes),
auto-rotation never leaves `FIXED`: every sequence of ticks keeps the
state machine in `FIXED`. -/
theorem c6_single_enabled_no_transition (m : MatrixDisplayUi) (n : Nat)
    (h1 : m.state.appState = AppState.FIXED)
    (hcache : m._enabledAppCount = ((m.apps.filter (fun a => a.enabled)).length : Int))
    (hone : (m.apps.filter (fun a => a.enabled)).length = 1) :
    (tickIter n m).state.appState = AppState.FIXED := by
  have hcnt : m._enabledAppCount = 1 := by rw [hcache, hone]; norm_num
  clear hcache hone
  induction n generalizing m with
  | zero => exact h1
  | succ k ih =>
    have hs := tick_single_enabled_step m h1 hcnt
    exact ih (tick m) hs.1 hs.2

/-- C6 witness: a single enabled page with the dwell budget long
exceeded stays `FIXED` across five ticks. -/
theorem c6_single_enabled_witness :
    (tickIter 5 (setApps [⟨true, 0, 0⟩]
        ⟨⟨AppState.FIXED, 0, 500, 1, false, 0, -1⟩, [], 0, 150, 12, (100 : ℚ) / 3, -1, 1,
          true, 0, 5000⟩)).state.appState = AppState.FIXED :=
  c6_single_enabled_no_transition _ 5 rfl (by decide) (by decide)

/-- With no queued manual target, `getNextAppNumber` leaves the state
unchanged (helper). -/
theorem getNextAppNumber_no_queue (m : MatrixDisplayUi) (hq : m.nextAppNumber = -1) :
    (getNextAppNumber m).2 = m := by
  rw [getNextAppNumber]
  rw [if_neg (by simp [hq])]
  dsimp only
  split <;> rfl

/-- A fixed-state tick whose dwell budget expires with auto-rotation
on and more than one enabled page enters a transition, locking the
target computed by the single `getNextAppNumber` call (helper). -/
theorem tick_fixed_enter (m : MatrixDisplayUi)
    (h1 : m.state.appState = AppState.FIXED)
    (hm : m.state.manuelControll = false)
    (hc : m.AppCount > 0)
    (h2 : m.state.ticksSinceLastStateSwitch + 1 ≥ m.ticksPerApp)
    (hauto : m.setAutoTransition = true)
    (hcnt : m._enabledAppCount > 1)
    (hq : m.nextAppNumber = -1) :
    tick m = { m with state := { m.state with
      appState := AppState.IN_TRANSITION,
      ticksSinceLastStateSwitch := 0,
      cachedNextApp :=
        (getNextAppNumber { m with state := { m.state with
          ticksSinceLastStateSwitch := m.state.ticksSinceLastStateSwitch + 1 } }).1 } } := by
  rw [tick, tickC]
  dsimp only
  rw [if_pos hc, h1]
  dsimp only
  rw [hm]
  rw [if_neg (show ¬ (false = true) from by simp)]
  rw [if_pos (by dsimp only; omega)]
  rw [if_pos (show _ ∧ _ from by dsimp only; exact ⟨by rw [hauto], by omega⟩)]
  rw [getNextAppNumber_no_queue _ (by dsimp only; exact hq)]

/-- A transition-completing tick with an in-range cached target whose
page has no custom duration: the target becomes current, the cache is
cleared, and the global default is loaded as the tick budget
(helper). -/
theorem tick_trans_complete_default (m : MatrixDisplayUi)
    (h1 : m.state.appState = AppState.IN_TRANSITION)
    (hc : m.AppCount > 0)
    (h2 : m.state.ticksSinceLastStateSwitch + 1 ≥ m.ticksPerTransition)
    (hin : 0 ≤ m.state.cachedNextApp ∧ m.state.cachedNextApp < (m.apps.length : Int))
    (hdur : (getAppD m.apps m.state.cachedNextApp).duration = 0) :
    tick m = { m with
      state := { m.state with
        appState := AppState.FIXED,
        currentApp := m.state.cachedNextApp,
        cachedNextApp := -1,
        ticksSinceLastStateSwitch := 0 },
      ticksPerApp := cTrunc ((m.TIME_PER_APP : ℚ) / m.updateInterval) } := by
  rw [tick, tickC]
  dsimp only
  rw [if_pos hc, h1]
  dsimp only
  rw [if_pos (by omega)]
  rw [if_neg (show ¬ (m.state.cachedNextApp < 0 ∨ m.state.cachedNextApp ≥ (m.apps.length : Int))
    from by omega)]
  rw [if_neg (by simp [hdur])]

/-- The C2 scenario: two enabled pages (time at 0, date at 1, both
duration 0), global default 5000 ms at 30 fps (`updateInterval` =
1000/30 ms, `ticksPerApp` = 150), auto-rotation on, starting `FIXED`
on page 0 with counter 0; `T` is the transition tick budget. -/
def c2m (T : Nat) : MatrixDisplayUi :=
  ⟨⟨AppState.FIXED, 0, 0, 1, false, 0, -1⟩, [⟨true, 0, 0⟩, ⟨true, 1, 0⟩], 2, 150, (T : Int),
    (100 : ℚ) / 3, -1, 1, true, 2, 5000⟩

/-- The C2 scenario after `k` dwell ticks. -/
def c2fix (T : Nat) (k : Int) : MatrixDisplayUi :=
  { c2m T with state := { (c2m T).state with ticksSinceLastStateSwitch := k } }

/-- The C2 scenario `k` ticks into the transition to page 1. -/
def c2trans (T : Nat) (k : Int) : MatrixDisplayUi :=
  { c2m T with state := ⟨AppState.IN_TRANSITION, 0, k, 1, false, 0, 1⟩ }

/-- The C2 scenario after the transition to page 1 completes. -/
def c2fin (T : Nat) : MatrixDisplayUi :=
  { c2m T with state := ⟨AppState.FIXED, 1, 0, 1, false, 0, -1⟩,
               ticksPerApp := cTrunc (((5000 : Nat) : ℚ) / ((100 : ℚ) / 3)) }

/-- Iterated ticks compose (helper). -/
theorem tickIter_add (a b : Nat) : ∀ m, tickIter (a + b) m = tickIter b (tickIter a m) := by
  induction a with
  | zero => intro m; rw [Nat.zero_add]; rfl
  | succ k ih =>
    intro m
    have h : k + 1 + b = (k + b) + 1 := by omega
    rw [h]
    show tickIter (k + b) (tick m) = _
    rw [ih (tick m)]
    rfl

/-- Peeling the last tick off an iteration (helper). -/
theorem tickIter_succ (n : Nat) (m : MatrixDisplayUi) :
    tickIter (n + 1) m = tick (tickIter n m) := by
  rw [tickIter_add n 1 m]
  rfl

/-- C2 dwell phase: the first 149 ticks only advance the counter. -/
theorem c2_fix_phase (T : Nat) : ∀ n : Nat, n ≤ 149 → tickIter n (c2m T) = c2fix T (n : Int) := by
  intro n
  induction n with
  | zero => intro _; rfl
  | succ k ih =>
    intro hk
    rw [tickIter_succ, ih (by omega)]
    rw [tick_fixed_idle (c2fix T (k : Int)) rfl rfl
      (by dsimp only [c2fix, c2m]; decide)
      (show ((k : Int) + 1 < 150) from by exact_mod_cast (by omega : k + 1 < 150))]
    show c2fix T ((k : Int) + 1) = c2fix T ((k + 1 : Nat) : Int)
    push_cast
    rfl

/-- C2 entering step: tick 150 enters the transition and caches page 1. -/
theorem c2_enter (T : Nat) : tick (c2fix T ((149 : Nat) : Int)) = c2trans T 0 := by
  rw [tick_fixed_enter (c2fix T ((149 : Nat) : Int)) rfl rfl
    (by dsimp only [c2fix, c2m]; decide)
    (by dsimp only [c2fix, c2m]; decide)
    rfl
    (by dsimp only [c2fix, c2m]; decide)
    rfl]
  have hv : (getNextAppNumber { c2fix T ((149 : Nat) : Int) with
      state := { (c2fix T ((149 : Nat) : Int)).state with ticksSinceLastStateSwitch :=
        (c2fix T ((149 : Nat) : Int)).state.ticksSinceLastStateSwitch + 1 } }).1 = 1 := by
    dsimp only [getNextAppNumber, c2fix, c2m]
    rw [if_neg (by decide)]
    rw [if_neg (by decide)]
    dsimp only
    decide
  rw [hv]
  rfl

/-- C2 transition step before the transition budget expires. -/
theorem c2_trans_step (T : Nat) (k : Nat) (hk : k + 1 < T) :
    tick (c2trans T (k : Int)) = c2trans T ((k : Int) + 1) := by
  rw [tick_trans_progress (c2trans T (k : Int)) rfl
    (by dsimp only [c2trans, c2m]; decide)
    (show ((k : Int) + 1 < (T : Int)) from by exact_mod_cast hk)]
  rfl

/-- C2 transition phase, iterated. -/
theorem c2_trans_phase (T : Nat) : ∀ n k : Nat, k + n + 1 ≤ T →
    tickIter n (c2trans T (k : Int)) = c2trans T ((k + n : Nat) : Int) := by
  intro n
  induction n with
  | zero =>
    intro k _
    rfl
  | succ j ih =>
    intro k hk
    rw [tickIter_succ, ih k (by omega), c2_trans_step T (k + j) (by omega)]
    show c2trans T (((k + j : Nat) : Int) + 1) = c2trans T ((k + (j + 1) : Nat) : Int)
    push_cast
    rw [show ((k : Int) + j + 1 = (k : Int) + (j + 1)) from by ring]

/-- C2 completing step: the tick that reaches the transition budget
lands `FIXED` on page 1 with the global-default tick budget. -/
theorem c2_complete (T : Nat) (k : Nat) (hk : k + 1 = T) :
    tick (c2trans T (k : Int)) = c2fin T := by
  rw [tick_trans_complete_default (c2trans T (k : Int)) rfl
    (by dsimp only [c2trans, c2m]; decide)
    (by dsimp only [c2trans, c2m]; exact_mod_cast (by omega : (k + 1 : Int) ≥ (T : Int)))
    (by dsimp only [c2trans, c2m]; constructor <;> decide)
    (by dsimp only [c2trans, c2m, getAppD]; decide)]
  rfl

/-- C2 (confirmed): in the two-page scenario the scheduler is still
`FIXED` after 149 ticks, is `IN_TRANSITION` with page 1 cached after
exactly 150 ticks, and after `150 + T` total ticks is `FIXED` on page
1 with the cache cleared and the tick budget reloaded from the global
default (= 150 ticks), for every transition budget `T ≥ 1`. -/
theorem c2_rotation_scenario (T : Nat) (hT : 1 ≤ T) :
    (tickIter 149 (c2m T)).state.appState = AppState.FIXED ∧
    (tickIter 150 (c2m T)).state.appState = AppState.IN_TRANSITION ∧
    (tickIter 150 (c2m T)).state.cachedNextApp = 1 ∧
    (tickIter (150 + T) (c2m T)).state.appState = AppState.FIXED ∧
    (tickIter (150 + T) (c2m T)).state.currentApp = 1 ∧
    (tickIter (150 + T) (c2m T)).state.cachedNextApp = -1 ∧
    (tickIter (150 + T) (c2m T)).ticksPerApp =
      cTrunc (((c2m T).TIME_PER_APP : ℚ) / (c2m T).updateInterval) ∧
    cTrunc (((c2m T).TIME_PER_APP : ℚ) / (c2m T).updateInterval) = 150 := by
  have h149 := c2_fix_phase T 149 (le_refl 149)
  have h150 : tickIter 150 (c2m T) = c2trans T 0 := by
    rw [show (150 : Nat) = 149 + 1 from rfl, tickIter_succ, h149]
    exact c2_enter T
  have hfin : tickIter (150 + T) (c2m T) = c2fin T := by
    obtain ⟨U, rfl⟩ : ∃ U, T = U + 1 := ⟨T - 1, by omega⟩
    rw [tickIter_add 150 (U + 1), h150]
    rw [show c2trans (U + 1) 0 = c2trans (U + 1) ((0 : Nat) : Int) from rfl]
    rw [tickIter_succ, c2_trans_phase (U + 1) U 0 (by omega)]
    rw [show (0 + U : Nat) = U from by omega]
    exact c2_complete (U + 1) U rfl
  have hval : cTrunc (((c2m T).TIME_PER_APP : ℚ) / (c2m T).updateInterval) = 150 := by
    rw [show (((c2m T).TIME_PER_APP : ℚ) / (c2m T).updateInterval) = (150 : ℚ) from by
      norm_num [c2m]]
    rw [cTrunc]
    norm_num
  exact ⟨by rw [h149]; rfl, by rw [h150]; rfl, by rw [h150]; rfl,
    by rw [hfin]; rfl, by rw [hfin]; rfl, by rw [hfin]; rfl,
    by rw [hfin]; rfl, hval⟩

/-- C2 witness: the concrete run with a 12-tick transition. -/
theorem c2_rotation_witness :
    (1 : Nat) ≤ 12 ∧ (tickIter 150 (c2m 12)).state.appState = AppState.IN_TRANSITION ∧
    (tickIter 162 (c2m 12)).state.currentApp = 1 := by
  have h := c2_rotation_scenario 12 (by decide)
  refine ⟨by decide, h.2.1, ?_⟩
  have h2 := h.2.2.2.2.1
  simpa using h2

/-- Adding one full wrap to the numerator turns the C truncating
remainder into the mathematical one (helper). -/
theorem tmod_wrap {p L d : Int} (hp : 0 ≤ p) (hL : 1 ≤ L) (hd : d = 1 ∨ d = -1) :
    (p + L + d).tmod L = (p + d).emod L := by
  rw [Int.tmod_eq_emod (by rcases hd with h | h <;> omega) (by omega)]
  show (p + L + d) % L = (p + d) % L
  have h : p + L + d = (p + d) + L * 1 := by ring
  rw [h, Int.add_mul_emod_self_left]

/-- C3 (amended): with no queued manual target, a transition direction
of +1 or -1, and at most 16 enabled pages (the source scans enabled
indices into a fixed 16-entry buffer), `getNextAppNumber` returns
exactly the spec's selection: position of the current index in the
ordered enabled list, one step with wraparound, absolute index; 0 when
nothing is enabled. -/
theorem c3_next_selection (m : MatrixDisplayUi)
    (hq : m.nextAppNumber = -1)
    (hdir : m.state.appTransitionDirection = 1 ∨ m.state.appTransitionDirection = -1)
    (hcap : ((List.range m.apps.length).filter
      (fun i => (m.apps.getD i ⟨false, 0, 0⟩).enabled)).length ≤ 16) :
    (getNextAppNumber m).1 = nextAppSpecC3 m := by
  rw [getNextAppNumber, nextAppSpecC3]
  rw [if_neg (by simp [hq])]
  dsimp only
  rw [List.take_of_length_le hcap]
  by_cases h0 : ((List.range m.apps.length).filter
      (fun i => (m.apps.getD i ⟨false, 0, 0⟩).enabled)).length = 0
  · rw [if_pos h0, if_pos h0]
  · rw [if_neg h0, if_neg h0]
    dsimp only
    rw [tmod_wrap]
    · split
      · exact Int.ofNat_nonneg _
      · exact Int.le_refl 0
    · omega
    · exact hdir

/-- Seventeen enabled pages with the current page at index 16 — one
past the source's 16-entry scan buffer. -/
def c3state : MatrixDisplayUi :=
  ⟨⟨AppState.FIXED, 16, 0, 1, false, 0, -1⟩, List.replicate 17 ⟨true, 0, 0⟩, 17, 150, 12,
    (100 : ℚ) / 3, -1, 1, true, 17, 5000⟩

/-- C3 (counterexample): with 17 enabled pages and current index 16,
the code returns index 1 (current position not found in the truncated
scan, so it defaults to position 0 and steps to 1), while the spec's
uncapped selection wraps to index 0. -/
theorem c3_cap16_counterexample :
    c3state.nextAppNumber = -1 ∧
    c3state.state.appTransitionDirection = 1 ∧
    (getNextAppNumber c3state).1 = 1 ∧
    nextAppSpecC3 c3state = 0 ∧
    (getNextAppNumber c3state).1 ≠ nextAppSpecC3 c3state := by decide

/-- A three-page registry with the middle page disabled. -/
def c3wit : MatrixDisplayUi :=
  ⟨⟨AppState.FIXED, 0, 0, 1, false, 0, -1⟩, [⟨true, 0, 0⟩, ⟨false, 1, 0⟩, ⟨true, 2, 0⟩], 3, 150,
    12, (100 : ℚ) / 3, -1, 1, true, 2, 5000⟩

/-- C3 witness: stepping from page 0 skips the disabled page 1 and
lands on page 2, matching the spec selection. -/
theorem c3_next_selection_witness :
    (getNextAppNumber c3wit).1 = nextAppSpecC3 c3wit ∧ (getNextAppNumber c3wit).1 = 2 :=
  ⟨c3_next_selection c3wit rfl (Or.inl rfl) (by decide), by decide⟩

/-- Every scheduler operation calls the side-effecting
`getNextAppNumber` exactly once when it begins a transition and never
otherwise (helper). -/
theorem stepCalls_eq_begins (op : SchedOp) (m : MatrixDisplayUi) :
    (stepC op m).2 = if beginsTransition op m then 1 else 0 := by
  cases op with
  | next =>
    by_cases h : m.state.appState = AppState.IN_TRANSITION <;>
      simp [stepC, nextAppC, beginsTransition, h]
  | prev =>
    by_cases h : m.state.appState = AppState.IN_TRANSITION <;>
      simp [stepC, previousAppC, beginsTransition, h]
  | trans a =>
    by_cases h1 : (a : Int) ≥ m.AppCount
    · have h1' : ¬ ((a : Int) < m.AppCount) := by omega
      simp [stepC, transitionToAppC, beginsTransition, h1, h1']
    · have h1' : (a : Int) < m.AppCount := by omega
      by_cases h2 : (a : Int) = m.state.currentApp
      · rw [stepC, transitionToAppC, if_neg h1]
        dsimp only
        rw [if_pos h2]
        simp [beginsTransition, h1', h2]
      · rw [stepC, transitionToAppC, if_neg h1]
        dsimp only
        rw [if_neg h2]
        simp [beginsTransition, h1', h2]
  | tick =>
    by_cases hac : m.AppCount > 0
    · cases hst : m.state.appState with
      | IN_TRANSITION =>
        rw [stepC, tickC]
        dsimp only
        rw [if_pos hac, hst]
        dsimp only
        simp [beginsTransition, hst]
        split <;> rfl
      | FIXED =>
        rw [stepC, tickC]
        dsimp only
        rw [if_pos hac, hst]
        dsimp only
        have hbt : beginsTransition SchedOp.tick m =
            (decide (m.state.ticksSinceLastStateSwitch + 1 ≥ m.ticksPerApp) &&
              m.setAutoTransition && decide (m._enabledAppCount > 1)) := by
          simp [beginsTransition, hst, hac]
        rw [hbt]
        by_cases hm : m.state.manuelControll = true
        · rw [hm, if_pos rfl]
          by_cases htk : m.state.ticksSinceLastStateSwitch + 1 ≥ m.ticksPerApp
          · rw [if_pos (show _ ≥ _ from htk)]
            by_cases hau : m.setAutoTransition = true
            · by_cases hcn : m._enabledAppCount > 1
              · rw [if_pos (show _ ∧ _ from ⟨hau, hcn⟩)]
                simp [htk, hau, hcn]
              · rw [if_neg (show ¬ (_ ∧ _) from fun h => hcn h.2)]
                simp [htk, hau, hcn]
            · rw [if_neg (show ¬ (_ ∧ _) from fun h => hau h.1)]
              simp [htk, hau]
          · rw [if_neg (show ¬ (_ ≥ _) from htk)]
            simp [htk]
        · rw [if_neg hm]
          by_cases htk : m.state.ticksSinceLastStateSwitch + 1 ≥ m.ticksPerApp
          · rw [if_pos (show _ ≥ _ from htk)]
            by_cases hau : m.setAutoTransition = true
            · by_cases hcn : m._enabledAppCount > 1
              · rw [if_pos (show _ ∧ _ from ⟨hau, hcn⟩)]
                simp [htk, hau, hcn]
              · rw [if_neg (show ¬ (_ ∧ _) from fun h => hcn h.2)]
                simp [htk, hau, hcn]
            · rw [if_neg (show ¬ (_ ∧ _) from fun h => hau h.1)]
              simp [htk, hau]
          · rw [if_neg (show ¬ (_ ≥ _) from htk)]
            simp [htk]
    · rw [stepC, tickC]
      dsimp only
      rw [if_neg hac]
      simp [beginsTransition, hac]

/-- Along any operation sequence, the total number of
`getNextAppNumber` calls equals the number of transition-begins
(helper). -/
theorem runCalls_eq_beginsCount (l : List SchedOp) : ∀ m,
    (runCalls l m).2 = beginsCount l m := by
  induction l with
  | nil => intro m; rfl
  | cons op l ih =>
    intro m
    rw [runCalls, beginsCount, ih (stepC op m).1, stepCalls_eq_begins]
    rfl

/-- An operation that begins a transition leaves the machine in
`IN_TRANSITION` with the selection locked (helper). -/
theorem begins_enters_transition (op : SchedOp) (m : MatrixDisplayUi)
    (hb : beginsTransition op m = true) :
    (stepC op m).1.state.appState = AppState.IN_TRANSITION := by
  cases op with
  | next =>
    simp only [beginsTransition, bne_iff_ne] at hb
    rw [stepC, nextAppC, if_pos hb]
    dsimp only
    rw [getNextAppNumber]
    split <;> first | rfl | (dsimp only; split <;> rfl)
  | prev =>
    simp only [beginsTransition, bne_iff_ne] at hb
    rw [stepC, previousAppC, if_pos hb]
    dsimp only
    rw [getNextAppNumber]
    split <;> first | rfl | (dsimp only; split <;> rfl)
  | trans a =>
    simp only [beginsTransition, Bool.and_eq_true, decide_eq_true_eq] at hb
    rw [stepC, transitionToAppC, if_neg (by omega)]
    dsimp only
    rw [if_neg hb.2]
    dsimp only
    rw [getNextAppNumber]
    split <;> rfl
  | tick =>
    simp only [beginsTransition, Bool.and_eq_true, decide_eq_true_eq, beq_iff_eq] at hb
    obtain ⟨⟨⟨⟨hst, hac⟩, htk⟩, hau⟩, hcn⟩ := hb
    rw [stepC, tickC]
    dsimp only
    rw [if_pos hac, hst]
    dsimp only
    by_cases hm : m.state.manuelControll = true
    · rw [hm, if_pos rfl]
      rw [if_pos (show _ ≥ _ from htk)]
      rw [if_pos (show _ ∧ _ from ⟨hau, hcn⟩)]
    · rw [if_neg hm]
      rw [if_pos (show _ ≥ _ from htk)]
      rw [if_pos (show _ ∧ _ from ⟨hau, hcn⟩)]

/-- An operation that does not begin a transition never consumes the
queued one-shot manual target (helper). -/
theorem nonbegins_preserves_queue (op : SchedOp) (m : MatrixDisplayUi)
    (hb : beginsTransition op m = false) :
    (stepC op m).1.nextAppNumber = m.nextAppNumber := by
  cases op with
  | next =>
    have h : m.state.appState = AppState.IN_TRANSITION := by
      simpa [beginsTransition] using hb
    rw [stepC, nextAppC, if_neg (by simp [h])]
  | prev =>
    have h : m.state.appState = AppState.IN_TRANSITION := by
      simpa [beginsTransition] using hb
    rw [stepC, previousAppC, if_neg (by simp [h])]
  | trans a =>
    by_cases h1 : (a : Int) ≥ m.AppCount
    · rw [stepC, transitionToAppC, if_pos h1]
    · have h2 : (a : Int) = m.state.currentApp := by
        have h1' : (a : Int) < m.AppCount := by omega
        simpa [beginsTransition, h1'] using hb
      rw [stepC, transitionToAppC, if_neg h1]
      dsimp only
      rw [if_pos h2]
  | tick =>
    by_cases hac : m.AppCount > 0
    · cases hst : m.state.appState with
      | IN_TRANSITION =>
        rw [stepC, tickC]
        dsimp only
        rw [if_pos hac, hst]
        dsimp only
        split
        · dsimp only
          split <;> split <;> rfl
        · rfl
      | FIXED =>
        rw [stepC, tickC]
        dsimp only
        rw [if_pos hac, hst]
        dsimp only
        have hnb : ¬ (m.state.ticksSinceLastStateSwitch + 1 ≥ m.ticksPerApp ∧
            m.setAutoTransition = true ∧ m._enabledAppCount > 1) := by
          intro ⟨htk, hau, hcn⟩
          rw [beginsTransition] at hb
          simp [hst, hac, htk, hau, hcn] at hb
        by_cases hm : m.state.manuelControll = true
        · rw [hm, if_pos rfl]
          by_cases htk : m.state.ticksSinceLastStateSwitch + 1 ≥ m.ticksPerApp
          · rw [if_pos (show _ ≥ _ from htk)]
            rw [if_neg (show ¬ (_ ∧ _) from fun h => hnb ⟨htk, h.1, h.2⟩)]
          · rw [if_neg (show ¬ (_ ≥ _) from htk)]
        · rw [if_neg hm]
          by_cases htk : m.state.ticksSinceLastStateSwitch + 1 ≥ m.ticksPerApp
          · rw [if_pos (show _ ≥ _ from htk)]
            rw [if_neg (show ¬ (_ ∧ _) from fun h => hnb ⟨htk, h.1, h.2⟩)]
          · rw [if_neg (show ¬ (_ ≥ _) from htk)]
    · rw [stepC, tickC]
      dsimp only
      rw [if_neg hac]

/-- During a transition `tick` never reselects: zero
`getNextAppNumber` calls, the cache is preserved until the completing
tick, and that tick consumes it, clearing it to -1 (helper). -/
theorem tick_in_transition_cache (m : MatrixDisplayUi)
    (h1 : m.state.appState = AppState.IN_TRANSITION) (hac : m.AppCount > 0) :
    (stepC SchedOp.tick m).2 = 0 ∧
    (m.state.ticksSinceLastStateSwitch + 1 < m.ticksPerTransition →
      (stepC SchedOp.tick m).1.state.cachedNextApp = m.state.cachedNextApp ∧
      (stepC SchedOp.tick m).1.state.appState = AppState.IN_TRANSITION) ∧
    (m.state.ticksSinceLastStateSwitch + 1 ≥ m.ticksPerTransition →
      (stepC SchedOp.tick m).1.state.cachedNextApp = -1 ∧
      (stepC SchedOp.tick m).1.state.appState = AppState.FIXED) := by
  refine ⟨?_, ?_, ?_⟩
  · rw [stepC, tickC]
    dsimp only
    rw [if_pos hac, h1]
    dsimp only
    split <;> rfl
  · intro hlt
    rw [show (stepC SchedOp.tick m).1 = tick m from rfl, tick_trans_progress m h1 hac hlt]
    exact ⟨rfl, h1⟩
  · intro hge
    rw [stepC, tickC]
    dsimp only
    rw [if_pos hac, h1]
    dsimp only
    rw [if_pos (show _ ≥ _ from hge)]
    dsimp only
    split <;> split <;> exact ⟨rfl, rfl⟩

/-- C1 (confirmed): across every sequence of scheduler operations the
next-page index is selected exactly once per transition: every
operation calls the side-effecting `getNextAppNumber` exactly once
when it begins a transition and never otherwise (so the total call
count along any trace equals the number of transition-begins); a
begin leaves the machine `IN_TRANSITION` with `cachedNextApp` locked;
no non-begin consumes the queued one-shot manual target
`nextAppNumber`; and while `IN_TRANSITION` a tick performs zero
selections, preserving the cache until the single completing tick,
which consumes it exactly once (clearing it to -1). -/
theorem c1_select_next_exactly_once :
    (∀ op m, (stepC op m).2 = if beginsTransition op m then 1 else 0) ∧
    (∀ l m, (runCalls l m).2 = beginsCount l m) ∧
    (∀ op m, beginsTransition op m = true →
      (stepC op m).1.state.appState = AppState.IN_TRANSITION) ∧
    (∀ op m, beginsTransition op m = false →
      (stepC op m).1.nextAppNumber = m.nextAppNumber) ∧
    (∀ m, m.state.appState = AppState.IN_TRANSITION → m.AppCount > 0 →
      (stepC SchedOp.tick m).2 = 0 ∧
      (m.state.ticksSinceLastStateSwitch + 1 < m.ticksPerTransition →
        (stepC SchedOp.tick m).1.state.cachedNextApp = m.state.cachedNextApp ∧
        (stepC SchedOp.tick m).1.state.appState = AppState.IN_TRANSITION) ∧
      (m.state.ticksSinceLastStateSwitch + 1 ≥ m.ticksPerTransition →
        (stepC SchedOp.tick m).1.state.cachedNextApp = -1 ∧
        (stepC SchedOp.tick m).1.state.appState = AppState.FIXED)) :=
  ⟨stepCalls_eq_begins, fun l m => runCalls_eq_beginsCount l m,
   begins_enters_transition, nonbegins_preserves_queue,
   fun m h1 hac => tick_in_transition_cache m h1 hac⟩

/-- A two-page scheduler one tick away from its auto-rotation
deadline. -/
def c1wit : MatrixDisplayUi :=
  ⟨⟨AppState.FIXED, 0, 149, 1, false, 0, -1⟩, [⟨true, 0, 0⟩, ⟨true, 1, 0⟩], 2, 150, 12,
    (100 : ℚ) / 3, -1, 1, true, 2, 5000⟩

/-- C1 witness: the deadline tick begins a transition with exactly one
selection call, and a two-tick trace makes exactly as many calls as
transition-begins. -/
theorem c1_select_next_exactly_once_witness :
    beginsTransition SchedOp.tick c1wit = true ∧
    (stepC SchedOp.tick c1wit).2 = 1 ∧
    (runCalls [SchedOp.tick, SchedOp.tick] c1wit).2 =
      beginsCount [SchedOp.tick, SchedOp.tick] c1wit ∧
    (stepC SchedOp.tick c1wit).1.state.appState = AppState.IN_TRANSITION := by
  have h := c1_select_next_exactly_once
  refine ⟨by decide, ?_, h.2.1 [SchedOp.tick, SchedOp.tick] c1wit,
    h.2.2.1 SchedOp.tick c1wit (by decide)⟩
  rw [h.1 SchedOp.tick c1wit]
  decide
